import Mathlib

-- Shallow embedding of src/ClientDb.ts (react-client-db).
-- JS values are modelled by `Value`; JS object key insertion order is modelled
-- by association lists; `new Date().getTime()` is modelled by the `now` field
-- of `DbState`; ids (TS `IdParam = number|string|null|undefined`) are modelled
-- as `Option String`, a numeric id standing for its decimal rendering, the
-- string produced by `toString`.  JS reference identity on the immutable JSON
-- values handled by the cache is modelled by structural equality (`valueEq`).

namespace ClientDb

/-- Model of the JS/JSON values that flow through the cache. -/
inductive Value where
  | vnull : Value
  | vstr : String → Value
  | vnum : Int → Value
  | vbool : Bool → Value
  | varr : List Value → Value
  | vobj : List (String × Value) → Value

/-- JS truthiness of a value. -/
def Value.truthy : Value → Bool
  | .vnull => false
  | .vstr s => !(s == "")
  | .vnum n => !(n == 0)
  | .vbool b => b
  | .varr _ => true
  | .vobj _ => true

/-- Truthiness of a possibly absent value (`undefined` is falsy). -/
def truthyOpt : Option Value → Bool
  | none => false
  | some v => v.truthy

/-- JS `Array.isArray`. -/
def Value.isArray : Value → Bool
  | .varr _ => true
  | _ => false

/-- JS member access `obj[k]` for object values (`undefined` on non-objects). -/
def Value.getField : Value → String → Option Value
  | .vobj fields, k => (fields.find? (fun p => p.1 == k)).map (fun p => p.2)
  | _, _ => none

mutual
/-- Structural equality of values, modelling `===` on the immutable JSON
values handled by the cache. -/
def valueEq : Value → Value → Bool
  | .vnull, .vnull => true
  | .vstr a, .vstr b => a == b
  | .vnum a, .vnum b => a == b
  | .vbool a, .vbool b => a == b
  | .varr a, .varr b => valueListEq a b
  | .vobj a, .vobj b => valueFieldsEq a b
  | _, _ => false

def valueListEq : List Value → List Value → Bool
  | [], [] => true
  | a :: as, b :: bs => valueEq a b && valueListEq as bs
  | _, _ => false

def valueFieldsEq : List (String × Value) → List (String × Value) → Bool
  | [], [] => true
  | (k1, v1) :: as, (k2, v2) :: bs => k1 == k2 && valueEq v1 v2 && valueFieldsEq as bs
  | _, _ => false
end

mutual
/-- JS string coercion `key+''` (arrays joined by commas, approximating
`Array.prototype.toString`; only scalar keys occur in practice). -/
def Value.toJsString : Value → String
  | .vnull => "null"
  | .vstr s => s
  | .vnum n => toString n
  | .vbool b => if b then "true" else "false"
  | .varr l => joinJsList l
  | .vobj _ => "[object Object]"

def joinJsList : List Value → String
  | [] => ""
  | [v] => Value.toJsString v
  | v :: rest => Value.toJsString v ++ "," ++ joinJsList rest
end

/-- In-memory record (TS `DbMemRecord`): the payload is kept deserialized. -/
structure DbMemRecord where
  expires : Nat
  collection : String
  refCollection : Option String
  objId : String
  obj : Value

/-- Persisted row of the `objs` table (TS `DbRecord`); JSON serialization
round-trips, so the payload is kept as a `Value`; a null `refCollection` is
persisted as the empty string (`record.refCollection||''`). -/
structure DbRecord where
  expires : Nat
  collection : String
  refCollection : String
  objId : String
  obj : Value

/-- Transient marker that a relation scan has been performed (TS `LoadedRef`). -/
structure LoadedRef where
  collection : String
  refCollection : Option String
  id : String
  isCollection : Bool

/-- Declared relation between collections (TS `DbCollectionRelation`);
`resetAll` is the cascade flag (absent means `false`). -/
structure DbCollectionRelation where
  collection : String
  depCollection : String
  resetAll : Bool

/-- A per-collection endpoint override: a static string or a builder. -/
inductive EndPointSpec where
  | stat : String → EndPointSpec
  | builder : (String → Option String → String) → EndPointSpec

/-- Configuration (TS `DbConfig` merged with the defaults).  `crudRoot`
models the `crudPrefix` field (renamed), and `getPrimaryKeyFn` models the
`getPrimaryKey` config override. -/
structure DbConfig where
  crudRoot : String
  primaryKey : String
  getPrimaryKeyFn : Option (String → Value → Option String)
  primaryKeyMap : Option (String → Option String)
  endPointMap : String → Option EndPointSpec
  collectionRelations : List DbCollectionRelation
  defaultTTLMinutes : Nat

/-- Event kinds of the notification bus (TS `ObjEventType`). -/
inductive ObjEventType where
  | set | update | reset | resetCollection | resetAll | delete | clearAll
deriving DecidableEq

/-- An event as delivered to listeners: `(type, collection, id, obj, includeRefs)`;
`obj = none` models `undefined`. -/
structure ObjEvent where
  type : ObjEventType
  collection : String
  id : String
  obj : Option Value
  includeRefs : Bool

/-- Errors thrown by the cache (`throw new Error(...)` sites). -/
inductive DbError where
  | mismatchIsCollection
  | duplicateMemKey : String → DbError
  | duplicateSqlKey : String → DbError
  | recordRefIdsRequired
  | recordRefIdRequired
  | updateInPlaceSameRef
  | cannotDetermineProperty : String → String → DbError
deriving DecidableEq

/-- The mutable state of a `ClientDb` instance: clock, memory cache,
loaded-relation markers, and the persisted `objs` rows. -/
structure DbState where
  now : Nat
  memCache : List (String × DbMemRecord)
  loadedRefs : List (String × LoadedRef)
  objs : List DbRecord

/-- Result of running one operation: its return value, the post state, the
events delivered to listeners, the collection resets scheduled for the next
tick (`removeAllRecordsNextFrame`), and the remote paths fetched. -/
structure OpOut (α : Type) where
  result : α
  state : DbState
  events : List ObjEvent
  scheduled : List String
  fetched : List String

/-- Association-list lookup (JS object property read). -/
def assocGet {α : Type} : List (String × α) → String → Option α
  | [], _ => none
  | (k, v) :: rest, key => if k == key then some v else assocGet rest key

/-- Association-list write (JS object property assignment: replaces in place,
appends for a new key, preserving insertion order). -/
def assocSet {α : Type} (m : List (String × α)) (key : String) (v : α) : List (String × α) :=
  if m.any (fun p => p.1 == key) then
    m.map (fun p => if p.1 == key then (p.1, v) else p)
  else
    m ++ [(key, v)]

/-- Association-list delete (JS `delete` of a property). -/
def assocDelete {α : Type} (m : List (String × α)) (key : String) : List (String × α) :=
  m.filter (fun p => !(p.1 == key))

/-- Key of the memory cache (TS `toKey`). -/
def toKey (collection id : String) : String := collection ++ ":" ++ id

/-- TS `isExpired`: `r.expires>0 && r.expires<new Date().getTime()`. -/
def isExpired (now : Nat) (r : DbMemRecord) : Bool :=
  decide (0 < r.expires) && decide (r.expires < now)

/-- TS `getExpires()` with the default TTL (every call site uses the default). -/
def getExpires (cfg : DbConfig) (now : Nat) : Nat :=
  now + cfg.defaultTTLMinutes * 60 * 1000

/-- TS `getPrimaryKey(collection,obj)`: config override first, then the
per-collection field map, then the default field; a missing or null key
yields the empty string. -/
def getPrimaryKey (cfg : DbConfig) (collection : String) (obj : Value) : String :=
  if !obj.truthy then "" else
  let viaFn : Option String :=
    match cfg.getPrimaryKeyFn with
    | some f => f collection obj
    | none => none
  match viaFn with
  | some k => k
  | none =>
    let mapped : Option String :=
      match cfg.primaryKeyMap with
      | some m => m collection
      | none => none
    let field :=
      match mapped with
      | some f => if f == "" then cfg.primaryKey else f
      | none => cfg.primaryKey
    match Value.getField obj field with
    | none => ""
    | some .vnull => ""
    | some v => v.toJsString

/-- TS `getEndPoint(collection,id,property)`. -/
def getEndPoint (cfg : DbConfig) (collection : String) (id : Option String)
    (property : Option String) : String :=
  let fallback := cfg.crudRoot ++ collection ++
    (match id with | none => "" | some i => "/" ++ i)
  let customStr : Option String :=
    match cfg.endPointMap collection with
    | none => none
    | some (.stat p) => some p
    | some (.builder f) => some (f collection id)
  let base :=
    match customStr with
    | none => fallback
    | some cs => if cs == "" then fallback else cs
  base ++ (match property with
           | none => ""
           | some p => if p == "" then "" else "/" ++ p)

/-- TS `callListeners`: the event delivered synchronously to the listeners,
paired with the collections whose full reset is scheduled for the next tick
(`removeAllRecordsNextFrame` via `setTimeout`), never executed inline. -/
def callListeners (cfg : DbConfig) (t : ObjEventType) (collection id : String)
    (obj : Option Value) (includeRef : Bool) : ObjEvent × List String :=
  (⟨t, collection, id, obj, includeRef⟩,
   if t = .reset ∨ t = .update ∨ t = .delete ∨ t = .resetCollection then
     ((cfg.collectionRelations.filter
        (fun r => r.depCollection == collection && r.resetAll)).map
        (fun r => r.collection))
   else [])

/-- One iteration of the write loop of TS `setRecordsAsync`: place the record
in the memory cache, then update the persisted row if one exists for
`(objId, collection)`, else insert it. -/
def applyRecord (s : DbState) (r : DbMemRecord) : DbState :=
  let s1 := {s with memCache := assocSet s.memCache (toKey r.collection r.objId) r}
  if s1.objs.any (fun row => row.objId == r.objId && row.collection == r.collection) then
    {s1 with objs := s1.objs.map (fun row =>
      if row.objId == r.objId && row.collection == r.collection then
        {row with expires := r.expires, obj := r.obj}
      else row)}
  else
    let row : DbRecord :=
      {expires := r.expires, collection := r.collection,
       refCollection := r.refCollection.getD "", objId := r.objId, obj := r.obj}
    {s1 with objs := s1.objs ++ [row]}

/-- TS `setRecordsAsync`: write every record through both tiers under the
write lock, then fire one event per record. -/
def setRecordsAsync (cfg : DbConfig) (evtType : ObjEventType)
    (records : List DbMemRecord) (s : DbState) : OpOut Unit :=
  let s2 := records.foldl applyRecord s
  let pairs := records.map (fun r =>
    callListeners cfg evtType r.collection r.objId (some r.obj) false)
  ⟨(), s2, pairs.map (fun p => p.1), (pairs.map (fun p => p.2)).flatten, []⟩

/-- TS `findLocalRecordAsync`: memory cache first, then the persisted row,
which is restored into the memory cache when found. -/
def findLocalRecordAsync (s : DbState) (collection : String) (id : Option String) :
    Option DbMemRecord × DbState :=
  match id with
  | none => (none, s)
  | some i =>
    let key := toKey collection i
    match assocGet s.memCache key with
    | some m => (some m, s)
    | none =>
      match s.objs.find? (fun row => row.objId == i && row.collection == collection) with
      | none => (none, s)
      | some row =>
        let record : DbMemRecord :=
          {expires := row.expires, collection := row.collection,
           refCollection := if row.refCollection == "" then none else some row.refCollection,
           objId := row.objId, obj := row.obj}
        (some record, {s with memCache := assocSet s.memCache key record})

/-- TS `removeRecordAsync`: delete the persisted row (also rows tagged with
the collection as `refCollection` when `includeRefs`), look up the payload for
the event when no default was given, drop the memory entries, drop the
matching collection-shaped `loadedRefs` markers when `includeRefs`, then fire
one event. -/
def removeRecordAsync (cfg : DbConfig) (collection : String) (id : Option String)
    (includeRefs : Bool) (t : ObjEventType) (defaultObj : Option Value)
    (s : DbState) : OpOut Unit :=
  match id with
  | none => ⟨(), s, [], [], []⟩
  | some i =>
    let s1 :=
      if includeRefs then
        {s with objs := s.objs.filter (fun row =>
          !(row.objId == i && (row.collection == collection || row.refCollection == collection)))}
      else
        {s with objs := s.objs.filter (fun row =>
          !(row.objId == i && row.collection == collection))}
    let lookedUp :=
      if truthyOpt defaultObj then (defaultObj, s1)
      else
        let fl := findLocalRecordAsync s1 collection (some i)
        (fl.1.map (fun c => c.obj), fl.2)
    let obj := lookedUp.1
    let s2 := lookedUp.2
    let s3 := {s2 with memCache := assocDelete s2.memCache (toKey collection i)}
    let s4 :=
      if includeRefs then
        {s3 with
          memCache := s3.memCache.filter (fun p =>
            !(p.2.refCollection == some collection && p.2.objId == i)),
          loadedRefs := s3.loadedRefs.filter (fun p =>
            !(p.2.isCollection && p.2.refCollection == some collection && p.2.id == i))}
      else s3
    let ev := callListeners cfg t collection i obj includeRefs
    ⟨(), s4, [ev.1], ev.2, []⟩

/-- TS `removeAllRecordsAsync`: delete every row tagged with the collection as
owner or as `refCollection` from both tiers, then fire one `resetCollection`
event with id `(all)`. -/
def removeAllRecordsAsync (cfg : DbConfig) (collection : String) (s : DbState) :
    OpOut Unit :=
  let s1 := {s with
    objs := s.objs.filter (fun row =>
      !(row.collection == collection || row.refCollection == collection)),
    memCache := s.memCache.filter (fun p =>
      !(p.2.collection == collection || p.2.refCollection == some collection))}
  let ev := callListeners cfg .resetCollection collection "(all)" none false
  ⟨(), s1, [ev.1], ev.2, []⟩

/-- TS `clearDbAsync`: wipe the persisted table, the loaded-ref markers and
the memory cache, then fire one event with empty collection and id. -/
def clearDbAsync (cfg : DbConfig) (t : ObjEventType) (s : DbState) : OpOut Unit :=
  let s1 := {s with objs := [], loadedRefs := [], memCache := []}
  let ev := callListeners cfg t "" "" none false
  ⟨(), s1, [ev.1], ev.2, []⟩

/-- TS `setAsync`: write one record with the default TTL under the object's
primary key (`obj||null`). -/
def setAsync (cfg : DbConfig) (collection : String) (obj : Value) (s : DbState) :
    OpOut Unit :=
  setRecordsAsync cfg .set
    [{expires := getExpires cfg s.now, collection := collection, refCollection := none,
      objId := getPrimaryKey cfg collection obj,
      obj := if obj.truthy then obj else .vnull}] s

/-- TS `deleteAsync`. -/
def deleteAsync (cfg : DbConfig) (collection : String) (id : Option String)
    (s : DbState) : OpOut Unit :=
  removeRecordAsync cfg collection id false .delete none s

/-- TS `updateAsync`. -/
def updateAsync (cfg : DbConfig) (collection : String) (id : Option String)
    (includeRefs : Bool) (s : DbState) : OpOut Unit :=
  removeRecordAsync cfg collection id includeRefs .reset none s

/-- TS `updateInPlaceAsync`: apply the transform only to a cached, unexpired
object; a null transform result is returned as-is; a result identical to the
input raises; otherwise the result is written with the entry's expiry and
`refCollection`, firing `update`. -/
def updateInPlaceAsync (cfg : DbConfig) (collection : String) (id : Option String)
    (update : Value → String → Option String → Option Value) (s : DbState) :
    OpOut (Except DbError (Option Value)) :=
  let fl := findLocalRecordAsync s collection id
  match fl.1 with
  | none => ⟨.ok none, fl.2, [], [], []⟩
  | some cached =>
    if isExpired fl.2.now cached then ⟨.ok none, fl.2, [], [], []⟩
    else
      match update cached.obj collection id with
      | none => ⟨.ok none, fl.2, [], [], []⟩
      | some obj =>
        if valueEq obj cached.obj then ⟨.error .updateInPlaceSameRef, fl.2, [], [], []⟩
        else
          let t := setRecordsAsync cfg .update
            [{expires := cached.expires, collection := collection,
              refCollection := cached.refCollection,
              objId := getPrimaryKey cfg collection obj, obj := obj}] fl.2
          ⟨.ok (some obj), t.state, t.events, t.scheduled, []⟩

/-- Path fetched by `getObjAsync` (`endpoint||this.getEndPoint(collection,id)`). -/
def crudFetchPath (cfg : DbConfig) (collection i : String) (endpoint : Option String) : String :=
  match endpoint with
  | some e => if e == "" then getEndPoint cfg collection (some i) none else e
  | none => getEndPoint cfg collection (some i) none

/-- TS `getObjAsync` (the operation body run under `syncAsync`; the in-flight
map itself is modelled separately by `syncStep`): null id short-circuits,
then a cached unexpired entry is served, else the endpoint is fetched and the
result (`obj||null`) is written with the default TTL. -/
def getObjAsync (cfg : DbConfig) (http : String → Value) (collection : String)
    (id : Option String) (endpoint : Option String) (s : DbState) : OpOut Value :=
  match id with
  | none => ⟨.vnull, s, [], [], []⟩
  | some i =>
    let fl := findLocalRecordAsync s collection (some i)
    let hit : Option Value :=
      match fl.1 with
      | some c => if isExpired fl.2.now c then none else some c.obj
      | none => none
    match hit with
    | some v => ⟨v, fl.2, [], [], []⟩
    | none =>
      let path := crudFetchPath cfg collection i endpoint
      let obj := http path
      let t := setRecordsAsync cfg .set
        [{expires := getExpires cfg fl.2.now, collection := collection,
          refCollection := none, objId := i,
          obj := if obj.truthy then obj else .vnull}] fl.2
      ⟨if obj.truthy then obj else .vnull, t.state, t.events, t.scheduled, [path]⟩

/-- Equality of a JS field against a string id, as used by the relation scans
(`r.obj?.[foreignKey]===id`, and the `json_extract` comparison against the
bound string parameter). -/
def fieldEqStr (obj : Value) (field target : String) : Bool :=
  match Value.getField obj field with
  | some (.vstr x) => x == target
  | _ => false

/-- The `ids` snapshot of a stored `DbRecordRef` payload
(`if(!recordRef.ids){throw}`; snapshots written by `getObjRef` always hold an
array here when the field is present). -/
def refIdsOf (recordRef : Value) : Option (List Value) :=
  match Value.getField recordRef "ids" with
  | some (.varr l) => some l
  | _ => none

/-- The memory scan of TS `findLocalRefCollectionAsync`: walk the memory cache
in insertion order collecting rows of `collection` whose foreign key equals
the base id; a second truthy row for the same `objId` raises the duplicate
error; ids are accumulated only when the marker was not yet loaded. -/
def memScanFK : List (String × DbMemRecord) → String → String → String → Bool →
    List (String × Value) → List String → Nat →
    Except DbError (List (String × Value) × List String × Nat)
  | [], _, _, _, _, map, ids, count => .ok (map, ids, count)
  | (_, r) :: rest, collection, foreignKey, i, loaded, map, ids, count =>
    if r.collection == collection && fieldEqStr r.obj foreignKey i then
      if truthyOpt (assocGet map r.objId) then .error (.duplicateMemKey r.objId)
      else
        memScanFK rest collection foreignKey i loaded (assocSet map r.objId r.obj)
          (if loaded then ids else ids ++ [r.objId]) (count + 1)
    else
      memScanFK rest collection foreignKey i loaded map ids count

/-- The store query of TS `findLocalRefCollectionAsync`: rows of the related
collection, not among the already found ids, whose foreign-key field equals
the base id. -/
def sqlScanFK (rows : List DbRecord) (collection foreignKey i : String)
    (excludeIds : List String) : List DbRecord :=
  rows.filter (fun row =>
    row.collection == collection && !(excludeIds.contains row.objId) &&
      fieldEqStr row.obj foreignKey i)

/-- Restoring the rows found by the store query: each becomes a memory record
with a null `refCollection`; a truthy entry already in the map raises the
duplicate error. -/
def absorbRows : List DbRecord → List (String × Value) → Nat → List DbMemRecord →
    Except DbError (List (String × Value) × Nat × List DbMemRecord)
  | [], map, count, recs => .ok (map, count, recs)
  | row :: rest, map, count, recs =>
    let record : DbMemRecord :=
      {expires := row.expires, collection := row.collection, refCollection := none,
       objId := row.objId, obj := row.obj}
    if truthyOpt (assocGet map record.objId) then .error (.duplicateSqlKey record.objId)
    else absorbRows rest (assocSet map row.objId record.obj) (count + 1) (recs ++ [record])

/-- Materializing the snapshot in order: `map[id]` (JS property access, hence
string coercion of the element); a falsy or missing entry yields null. -/
def materializeIds (map : List (String × Value)) : List Value → Option (List Value)
  | [] => some []
  | v :: rest =>
    match assocGet map v.toJsString with
    | some o =>
      if o.truthy then (materializeIds map rest).map (fun t => o :: t) else none
    | none => none

/-- Tail of TS `findLocalRefCollectionAsync`: a count mismatch deletes the
loaded marker and reports a miss; otherwise the snapshot is materialized in
order, any falsy entry reporting a miss (without deleting the marker). -/
def finishRefColl (refKey : String) (map : List (String × Value)) (count : Nat)
    (snapshotIds : List Value) (s : DbState) (evs : List ObjEvent)
    (sch : List String) : OpOut (Except DbError (Option (List Value))) :=
  if count == snapshotIds.length then
    match materializeIds map snapshotIds with
    | none => ⟨.ok none, s, evs, sch, []⟩
    | some objs => ⟨.ok (some objs), s, evs, sch, []⟩
  else
    ⟨.ok none, {s with loadedRefs := assocDelete s.loadedRefs refKey}, evs, sch, []⟩

/-- TS `findLocalRefCollectionAsync`: memory scan, then (when the marker for
`(collection, foreignKey, id)` is not yet loaded and the count falls short of
the snapshot) one store scan restoring rows into both tiers, then the marker
is set; finally the count check and the ordered materialization. -/
def findLocalRefCollectionAsync (cfg : DbConfig) (collection refCollection foreignKey : String)
    (id : Option String) (recordRef : Value) (s : DbState) :
    OpOut (Except DbError (Option (List Value))) :=
  match id with
  | none => ⟨.ok none, s, [], [], []⟩
  | some i =>
    match refIdsOf recordRef with
    | none => ⟨.error .recordRefIdsRequired, s, [], [], []⟩
    | some snapshotIds =>
      let refKey := collection ++ ":" ++ foreignKey ++ ":" ++ i
      let loaded := (assocGet s.loadedRefs refKey).isSome
      match memScanFK s.memCache collection foreignKey i loaded [] [] 0 with
      | .error e => ⟨.error e, s, [], [], []⟩
      | .ok (map0, ids0, count0) =>
        if loaded then
          finishRefColl refKey map0 count0 snapshotIds s [] []
        else
          let scanRes : Except DbError
              (List (String × Value) × Nat × DbState × List ObjEvent × List String) :=
            if count0 == snapshotIds.length then .ok (map0, count0, s, [], [])
            else
              let found := sqlScanFK s.objs collection foreignKey i ids0
              if found.isEmpty then .ok (map0, count0, s, [], [])
              else
                match absorbRows found map0 count0 [] with
                | .error e => .error e
                | .ok (map1, count1, recs) =>
                  let t := setRecordsAsync cfg .set recs s
                  .ok (map1, count1, t.state, t.events, t.scheduled)
          match scanRes with
          | .error e => ⟨.error e, s, [], [], []⟩
          | .ok (map1, count1, s1, evs, sch) =>
            let marker : LoadedRef := ⟨collection, some refCollection, i, true⟩
            let s2 := {s1 with loadedRefs := assocSet s1.loadedRefs refKey marker}
            finishRefColl refKey map1 count1 snapshotIds s2 evs sch

/-- TS `findLocalRefSingleAsync`: resolve the base object, extract its
foreign-key scalar (string or number, else unresolved), and look up the
target by primary key (`child?.obj||null`). -/
def findLocalRefSingleAsync (collection refCollection foreignKey : String)
    (id : Option String) (recordRef : Value) (s : DbState) :
    OpOut (Except DbError Value) :=
  if !(truthyOpt (Value.getField recordRef "id")) then
    ⟨.error .recordRefIdRequired, s, [], [], []⟩
  else
    let fl := findLocalRecordAsync s collection id
    match fl.1 with
    | none => ⟨.ok .vnull, fl.2, [], [], []⟩
    | some parent =>
      if !parent.obj.truthy then ⟨.ok .vnull, fl.2, [], [], []⟩
      else
        let fkOpt : Option String :=
          match Value.getField parent.obj foreignKey with
          | some (.vstr x) => some x
          | some (.vnum n) => some (toString n)
          | _ => none
        match fkOpt with
        | none => ⟨.ok .vnull, fl.2, [], [], []⟩
        | some fk =>
          let fl2 := findLocalRecordAsync fl.2 refCollection (some fk)
          match fl2.1 with
          | none => ⟨.ok .vnull, fl2.2, [], [], []⟩
          | some child =>
            ⟨.ok (if child.obj.truthy then child.obj else .vnull), fl2.2, [], [], []⟩

/-- Path fetched by the remote stage of `getObjRef`
(`endpoint||this.getEndPoint(collection,id,property)`). -/
def refFetchPath (cfg : DbConfig) (collection i property : String)
    (endpoint : Option String) : String :=
  match endpoint with
  | some e => if e == "" then getEndPoint cfg collection (some i) (some property) else e
  | none => getEndPoint cfg collection (some i) (some property)

/-- The remote stage of TS `getObjRef`: fetch, return null on a falsy payload,
raise on an array payload for a single-shaped request, else persist the
related objects and the snapshot record and return the payload. -/
def getObjRefFetch (cfg : DbConfig) (http : String → Value) (collection i : String)
    (refCollection property _foreignKey : String) (isCollection : Bool)
    (endpoint : Option String) (s : DbState) (evs : List ObjEvent)
    (sch : List String) : OpOut (Except DbError Value) :=
  let refFlag := collection ++ ":REF:" ++ property
  let path := refFetchPath cfg collection i property endpoint
  let objResult := http path
  if !objResult.truthy then ⟨.ok .vnull, s, evs, sch, [path]⟩
  else if objResult.isArray && !isCollection then
    ⟨.error .mismatchIsCollection, s, evs, sch, [path]⟩
  else
    let mkRec : Value → DbMemRecord := fun o =>
      {expires := getExpires cfg s.now, collection := refCollection, refCollection := none,
       objId := getPrimaryKey cfg refCollection o,
       obj := if o.truthy then o else .vnull}
    let recs : List DbMemRecord :=
      match objResult with
      | .varr l => l.map mkRec
      | v => [mkRec v]
    let collectionRef : Value :=
      match objResult with
      | .varr l =>
        .vobj [("ids", .varr (l.map (fun o => .vstr (getPrimaryKey cfg refCollection o))))]
      | v => .vobj [("id", .vstr (getPrimaryKey cfg refCollection v))]
    let flagRec : DbMemRecord :=
      {expires := getExpires cfg s.now, collection := refFlag,
       refCollection := some collection, objId := i, obj := collectionRef}
    let t := setRecordsAsync cfg .set (recs ++ [flagRec]) s
    ⟨.ok objResult, t.state, evs ++ t.events, sch ++ t.scheduled, [path]⟩

/-- TS `getObjRef` (the operation body run under `syncAsync`): try the cached
snapshot first; on a miss or an unsatisfiable snapshot delete the stale flag
record and fall through to the remote stage. -/
def getObjRef (cfg : DbConfig) (http : String → Value) (collection : String)
    (id : Option String) (refCollection property foreignKey : String)
    (isCollection : Bool) (clearCache : Bool) (endpoint : Option String)
    (s : DbState) : OpOut (Except DbError Value) :=
  match id with
  | none => ⟨.ok .vnull, s, [], [], []⟩
  | some i =>
    let refFlag := collection ++ ":REF:" ++ property
    let fl :=
      if clearCache then (none, s) else findLocalRecordAsync s refFlag (some i)
    let cachedHit : Option DbMemRecord :=
      match fl.1 with
      | some c => if isExpired fl.2.now c then none else some c
      | none => none
    match cachedHit with
    | none =>
      getObjRefFetch cfg http collection i refCollection property foreignKey
        isCollection endpoint fl.2 [] []
    | some cached =>
      if isCollection then
        let r := findLocalRefCollectionAsync cfg refCollection collection foreignKey
          (some i) cached.obj fl.2
        match r.result with
        | .error e => ⟨.error e, r.state, r.events, r.scheduled, r.fetched⟩
        | .ok (some objs) => ⟨.ok (.varr objs), r.state, r.events, r.scheduled, r.fetched⟩
        | .ok none =>
          let d := removeRecordAsync cfg refFlag (some i) false .delete none r.state
          getObjRefFetch cfg http collection i refCollection property foreignKey
            isCollection endpoint d.state (r.events ++ d.events) (r.scheduled ++ d.scheduled)
      else
        let r := findLocalRefSingleAsync collection refCollection foreignKey
          (some i) cached.obj fl.2
        match r.result with
        | .error e => ⟨.error e, r.state, r.events, r.scheduled, r.fetched⟩
        | .ok v =>
          if v.truthy then ⟨.ok v, r.state, r.events, r.scheduled, r.fetched⟩
          else
            let d := removeRecordAsync cfg refFlag (some i) false .delete none r.state
            getObjRefFetch cfg http collection i refCollection property foreignKey
              isCollection endpoint d.state (r.events ++ d.events) (r.scheduled ++ d.scheduled)

/-- TS `getObjRefCollection`. -/
def getObjRefCollection (cfg : DbConfig) (http : String → Value) (collection : String)
    (id : Option String) (refCollection property foreignKey : String)
    (clearCache : Bool) (endpoint : Option String) (s : DbState) :
    OpOut (Except DbError Value) :=
  getObjRef cfg http collection id refCollection property foreignKey true clearCache endpoint s

/-- TS `getObjRefSingle`: a falsy property is inferred by stripping a trailing
`Id` from the foreign-key name, else the configuration error is raised. -/
def getObjRefSingle (cfg : DbConfig) (http : String → Value) (collection : String)
    (id : Option String) (refCollection : String) (property : Option String)
    (foreignKey : String) (endpoint : Option String) (s : DbState) :
    OpOut (Except DbError Value) :=
  let inferred : Except DbError String :=
    if foreignKey.endsWith "Id" then .ok (foreignKey.dropRight 2)
    else .error (.cannotDetermineProperty collection foreignKey)
  let propRes : Except DbError String :=
    match property with
    | some p => if p == "" then inferred else .ok p
    | none => inferred
  match propRes with
  | .error e => ⟨.error e, s, [], [], []⟩
  | .ok p =>
    getObjRef cfg http collection id refCollection p foreignKey false false endpoint s

/-- Dedup key of TS `syncAsync`: the dependency list folded with `::`. -/
def mkSyncKey (deps : List String) : String :=
  deps.foldl (fun acc d => acc ++ "::" ++ d) ""

/-- Outcome of a deduplicated operation, success or failure. -/
inductive SyncResult where
  | ok : Value → SyncResult
  | fail : SyncResult

/-- State of the in-flight map of TS `syncAsync`: each pending key maps to the
operation id and the callers awaiting it in join order; `fetchCount` counts
operation bodies started (one remote call each for a cache-missing
`getObjAsync`); `delivered` logs `(caller, opId, result)` in delivery order. -/
structure SyncState where
  pending : List (String × (Nat × List Nat))
  nextOp : Nat
  fetchCount : Nat
  delivered : List (Nat × Nat × SyncResult)

/-- Events of the cooperative schedule: a caller invoking `syncAsync` with a
key, and the settlement of the pending operation for a key. -/
inductive SyncEvt where
  | call : Nat → String → SyncEvt
  | settle : String → SyncResult → SyncEvt

/-- One step of the `syncAsync` semantics.  A call whose key is already in
flight joins the pending operation (`return await p`); otherwise the body is
started and registered (`p=getAsync(); syncMap[key]=p`, with no suspension
point between the two).  On settlement the registration is removed by the
`finally` before any caller resumes with the result: the creator continuation
(which performs the `delete`) was attached to the promise first, so it runs
before every delivery. -/
def syncStep (s : SyncState) (e : SyncEvt) : SyncState :=
  match e with
  | .call caller key =>
    match assocGet s.pending key with
    | some (op, waiters) =>
      {s with pending := assocSet s.pending key (op, waiters ++ [caller])}
    | none =>
      {s with pending := assocSet s.pending key (s.nextOp, [caller]),
              nextOp := s.nextOp + 1, fetchCount := s.fetchCount + 1}
  | .settle key r =>
    match assocGet s.pending key with
    | some (op, waiters) =>
      {s with pending := assocDelete s.pending key,
              delivered := s.delivered ++ waiters.map (fun c => (c, op, r))}
    | none => s

/-- Run a schedule of `syncAsync` events. -/
def runSync (evts : List SyncEvt) (s : SyncState) : SyncState :=
  evts.foldl syncStep s

/-- Initial `syncAsync` state: empty in-flight map. -/
def syncInit : SyncState := ⟨[], 0, 0, []⟩

/-- TS constant `dbSchemaVersion`. -/
def dbSchemaVersion : String := "3"

/-- TS constant `dbDataStructure`. -/
def dbDataStructure : String := "3"

/-- State of the persistent schema for the migrator: existence of the
`settings` table, its rows, existence of the `objs` table and of its unique
`(objId, collection)` index, and the `objs` rows. -/
structure MigState where
  settingsTableExists : Bool
  settings : List (String × String)
  objsTableExists : Bool
  objsIndexExists : Bool
  objRows : List DbRecord

/-- TS `getSettingAsync`: `r.rows?.item(0)?.value||null` (an empty stored
value reads back as null). -/
def getSetting (s : MigState) (name : String) : Option String :=
  if name == "" then none
  else
    match assocGet s.settings name with
    | some v => if v == "" then none else some v
    | none => none

/-- TS `setSettingAsync`, also appending the write to a trace: update the row
when one exists, else insert it. -/
def setSettingT (s : MigState) (tr : List (String × String)) (name value : String) :
    MigState × List (String × String) :=
  if name == "" then (s, tr)
  else
    let settings :=
      if s.settings.any (fun p => p.1 == name) then
        s.settings.map (fun p => if p.1 == name then (p.1, value) else p)
      else s.settings ++ [(name, value)]
    ({s with settings := settings}, tr ++ [(name, value)])

/-- The commit flag as persisted before initialization (absent when the
settings table does not exist yet). -/
def persistedCommitFlag (s : MigState) : Option String :=
  if s.settingsTableExists then getSetting s "settingsCommitted" else none

/-- TS `initAsync`: create the settings table; wipe the settings when the
commit flag is not the string 1; drop the `objs` table on a schema-version
mismatch; create the `objs` table and its unique index; wipe the rows (table
retained) on a data-structure mismatch; then write the commit flag 0, both
version constants, and the commit flag 1.  Returns the final state and the
trace of settings writes. -/
def initAsync (s : MigState) : MigState × List (String × String) :=
  let s1 := if s.settingsTableExists then s
            else {s with settingsTableExists := true, settings := []}
  let committed := getSetting s1 "settingsCommitted"
  let s2 := if committed == some "1" then s1 else {s1 with settings := []}
  let sv := getSetting s2 "dbSchemaVersion"
  let s3 := if sv == some dbSchemaVersion then s2
            else {s2 with objsTableExists := false, objsIndexExists := false, objRows := []}
  let s4 := if s3.objsTableExists then {s3 with objsIndexExists := true}
            else {s3 with objsTableExists := true, objsIndexExists := true, objRows := []}
  let ds := getSetting s4 "dbDataStructure"
  let s5 := if ds == some dbDataStructure then s4 else {s4 with objRows := []}
  if sv == some dbSchemaVersion && ds == some dbDataStructure then (s5, [])
  else
    let w1 := setSettingT s5 [] "settingsCommitted" "0"
    let w2 := setSettingT w1.1 w1.2 "dbSchemaVersion" dbSchemaVersion
    let w3 := setSettingT w2.1 w2.2 "dbDataStructure" dbDataStructure
    let w4 := setSettingT w3.1 w3.2 "settingsCommitted" "1"
    (w4.1, w4.2)

/-- Inserting under a key different from the head leaves the head in place. -/
theorem assocSet_cons_ne {α : Type} (a : String) (b : α) (rest : List (String × α))
    (k : String) (v : α) (hp : (a == k) = false) :
    assocSet ((a, b) :: rest) k v = (a, b) :: assocSet rest k v := by
  by_cases hr : rest.any (fun q => q.1 == k) <;>
    simp_all [assocSet, List.any_cons, hp, hr]

/-- Reading back the key just written into an association list. -/
theorem assocGet_assocSet_self {α : Type} (m : List (String × α)) (k : String) (v : α) :
    assocGet (assocSet m k v) k = some v := by
  induction m with
  | nil => simp [assocSet, assocGet]
  | cons p rest ih =>
    rcases p with ⟨a, b⟩
    cases hp : (a == k) with
    | true =>
      have hany : ((a, b) :: rest).any (fun q => q.1 == k) = true := by
        simp [List.any_cons, hp]
      unfold assocSet
      rw [if_pos hany, List.map_cons, if_pos (show ((a, b).fst == k) = true from hp)]
      show (if (a == k) = true then some v else
        assocGet (rest.map (fun p => if p.1 == k then (p.1, v) else p)) k) = some v
      rw [if_pos hp]
    | false =>
      rw [assocSet_cons_ne a b rest k v hp]
      simp [assocGet, hp, ih]

/-- `applyRecord` never touches the loaded-ref markers. -/
theorem applyRecord_loadedRefs (s : DbState) (r : DbMemRecord) :
    (applyRecord s r).loadedRefs = s.loadedRefs := by
  simp only [applyRecord]
  split <;> rfl

/-- `applyRecord` never touches the clock. -/
theorem applyRecord_now (s : DbState) (r : DbMemRecord) :
    (applyRecord s r).now = s.now := by
  simp only [applyRecord]
  split <;> rfl

/-- The write loop of `setRecordsAsync` never touches the loaded-ref markers. -/
theorem foldl_applyRecord_loadedRefs (records : List DbMemRecord) (s : DbState) :
    (records.foldl applyRecord s).loadedRefs = s.loadedRefs := by
  induction records generalizing s with
  | nil => rfl
  | cons r rest ih => rw [List.foldl_cons, ih, applyRecord_loadedRefs]

/-- The write loop of `setRecordsAsync` never touches the clock. -/
theorem foldl_applyRecord_now (records : List DbMemRecord) (s : DbState) :
    (records.foldl applyRecord s).now = s.now := by
  induction records generalizing s with
  | nil => rfl
  | cons r rest ih => rw [List.foldl_cons, ih, applyRecord_now]

/-- `findLocalRecordAsync` never touches the loaded-ref markers. -/
theorem findLocalRecordAsync_loadedRefs (s : DbState) (c : String) (id : Option String) :
    (findLocalRecordAsync s c id).2.loadedRefs = s.loadedRefs := by
  cases id with
  | none => rfl
  | some i =>
    unfold findLocalRecordAsync
    cases h1 : assocGet s.memCache (toKey c i) with
    | some m => simp [h1]
    | none =>
      cases h2 : s.objs.find? (fun row => row.objId == i && row.collection == c) with
      | none => simp [h1, h2]
      | some row => simp [h1, h2]

/-- `findLocalRecordAsync` never touches the clock. -/
theorem findLocalRecordAsync_now (s : DbState) (c : String) (id : Option String) :
    (findLocalRecordAsync s c id).2.now = s.now := by
  cases id with
  | none => rfl
  | some i =>
    unfold findLocalRecordAsync
    cases h1 : assocGet s.memCache (toKey c i) with
    | some m => simp [h1]
    | none =>
      cases h2 : s.objs.find? (fun row => row.objId == i && row.collection == c) with
      | none => simp [h1, h2]
      | some row => simp [h1, h2]

/-- On a memory-cache hit, `findLocalRecordAsync` returns the entry and leaves
the state untouched. -/
theorem findLocalRecordAsync_memHit (s : DbState) (c i : String) (r : DbMemRecord)
    (h : assocGet s.memCache (toKey c i) = some r) :
    findLocalRecordAsync s c (some i) = (some r, s) := by
  simp [findLocalRecordAsync, h]

/-- A concrete configuration equal to the TS `defaultConfig`. -/
def cfg0 : DbConfig :=
  {crudRoot := "", primaryKey := "Id", getPrimaryKeyFn := none, primaryKeyMap := none,
   endPointMap := fun _ => none, collectionRelations := [], defaultTTLMinutes := 1440}

/-- `setRecordsAsync` never drops a loaded-ref marker. -/
theorem setRecordsAsync_loadedRefs (cfg : DbConfig) (t : ObjEventType)
    (records : List DbMemRecord) (s : DbState) :
    (setRecordsAsync cfg t records s).state.loadedRefs = s.loadedRefs := by
  simp only [setRecordsAsync]
  exact foldl_applyRecord_loadedRefs records s

/-- `removeAllRecordsAsync` never drops a loaded-ref marker. -/
theorem removeAllRecordsAsync_loadedRefs (cfg : DbConfig) (c : String) (s : DbState) :
    (removeAllRecordsAsync cfg c s).state.loadedRefs = s.loadedRefs := rfl

/-- `removeRecordAsync` without `includeRefs` never drops a loaded-ref marker. -/
theorem removeRecordAsync_noRefs_loadedRefs (cfg : DbConfig) (c i : String)
    (t : ObjEventType) (d : Option Value) (s : DbState) :
    (removeRecordAsync cfg c (some i) false t d s).state.loadedRefs = s.loadedRefs := by
  simp only [removeRecordAsync]
  by_cases hd : truthyOpt d = true
  · simp [hd]
  · simp [hd, findLocalRecordAsync_loadedRefs]

/-- `removeRecordAsync` with `includeRefs` drops exactly the collection-shaped
markers whose base collection and base id match the removed row. -/
theorem removeRecordAsync_refs_loadedRefs (cfg : DbConfig) (c i : String)
    (t : ObjEventType) (d : Option Value) (s : DbState) :
    (removeRecordAsync cfg c (some i) true t d s).state.loadedRefs =
      s.loadedRefs.filter (fun p =>
        !(p.2.isCollection && p.2.refCollection == some c && p.2.id == i)) := by
  simp only [removeRecordAsync]
  by_cases hd : truthyOpt d = true
  · simp [hd]
  · simp [hd, findLocalRecordAsync_loadedRefs]

/-- C1 (amended): no invalidating mutation except the targeted cases drops
LoadedRef markers.  `setRecordsAsync` writes and `removeAllRecordsAsync`
collection resets leave every marker in place; `removeRecordAsync` leaves
them all in place unless `includeRefs` is set, in which case exactly the
collection-shaped markers whose base `(refCollection, id)` matches the
removed row are dropped; only a full clear drops them all. -/
theorem loadedRefs_mutation_behavior :
    (∀ cfg t records s, (setRecordsAsync cfg t records s).state.loadedRefs = s.loadedRefs)
    ∧ (∀ cfg c s, (removeAllRecordsAsync cfg c s).state.loadedRefs = s.loadedRefs)
    ∧ (∀ cfg c i t d s,
        (removeRecordAsync cfg c (some i) false t d s).state.loadedRefs = s.loadedRefs)
    ∧ (∀ cfg c i t d s,
        (removeRecordAsync cfg c (some i) true t d s).state.loadedRefs =
          s.loadedRefs.filter (fun p =>
            !(p.2.isCollection && p.2.refCollection == some c && p.2.id == i)))
    ∧ (∀ cfg t s, (clearDbAsync cfg t s).state.loadedRefs = []) :=
  ⟨setRecordsAsync_loadedRefs, removeAllRecordsAsync_loadedRefs,
   removeRecordAsync_noRefs_loadedRefs, removeRecordAsync_refs_loadedRefs,
   fun _ _ _ => rfl⟩

/-- A row of the `child` collection pointing at base id `1`. -/
def childRowC1 : DbMemRecord :=
  {expires := 100, collection := "child", refCollection := none, objId := "5",
   obj := .vobj [("Id", .vstr "5"), ("baseId", .vstr "1")]}

/-- A state holding that row in both tiers together with the LoadedRef marker
recording that the relation scan over `child` rows with `baseId = 1` was
performed. -/
def sC1 : DbState :=
  {now := 0,
   memCache := [(toKey "child" "5", childRowC1)],
   loadedRefs := [("child:baseId:1", ⟨"child", some "base", "1", true⟩)],
   objs := [⟨100, "child", "", "5", .vobj [("Id", .vstr "5"), ("baseId", .vstr "1")]⟩]}

/-- C1 counterexample: the collection-wide removal of `child` deletes the row
the marker depends on from both tiers, yet the marker survives the completed
operation, contradicting the claim that every dependent LoadedRef marker is
dropped by an invalidating mutation. -/
theorem loadedRefs_survive_removeAll_counterexample :
    (removeAllRecordsAsync cfg0 "child" sC1).state.memCache = []
    ∧ (removeAllRecordsAsync cfg0 "child" sC1).state.objs = []
    ∧ (removeAllRecordsAsync cfg0 "child" sC1).state.loadedRefs =
        [("child:baseId:1", ⟨"child", some "base", "1", true⟩)] :=
  ⟨rfl, rfl, rfl⟩

/-- C10 (confirmed): `getObjAsync` with a null or undefined id returns null,
leaves the state unchanged, fires no event, schedules nothing, and fetches
nothing. -/
theorem getObjAsync_null_id (cfg : DbConfig) (http : String → Value)
    (collection : String) (endpoint : Option String) (s : DbState) :
    getObjAsync cfg http collection none endpoint s = ⟨.vnull, s, [], [], []⟩ := rfl

/-- C3 (confirmed): two `getObjAsync` calls with the same `(collection, id)`
dedup key, the second issued before the first settles, start exactly one
operation body (one remote fetch); on settlement the registration is removed
from the in-flight map before the shared result is delivered identically to
both callers, and a later call with the same key starts a fresh operation. -/
theorem syncAsync_dedup (c i : String) (r : SyncResult) :
    (runSync [SyncEvt.call 1 (mkSyncKey ["getObjAsync", c, i]),
              SyncEvt.call 2 (mkSyncKey ["getObjAsync", c, i]),
              SyncEvt.settle (mkSyncKey ["getObjAsync", c, i]) r] syncInit).fetchCount = 1
    ∧ (runSync [SyncEvt.call 1 (mkSyncKey ["getObjAsync", c, i]),
                SyncEvt.call 2 (mkSyncKey ["getObjAsync", c, i]),
                SyncEvt.settle (mkSyncKey ["getObjAsync", c, i]) r] syncInit).delivered =
        [(1, 0, r), (2, 0, r)]
    ∧ (runSync [SyncEvt.call 1 (mkSyncKey ["getObjAsync", c, i]),
                SyncEvt.call 2 (mkSyncKey ["getObjAsync", c, i]),
                SyncEvt.settle (mkSyncKey ["getObjAsync", c, i]) r] syncInit).pending = []
    ∧ (runSync [SyncEvt.call 1 (mkSyncKey ["getObjAsync", c, i]),
                SyncEvt.call 2 (mkSyncKey ["getObjAsync", c, i]),
                SyncEvt.settle (mkSyncKey ["getObjAsync", c, i]) r,
                SyncEvt.call 3 (mkSyncKey ["getObjAsync", c, i])] syncInit).fetchCount = 2 := by
  refine ⟨?_, ?_, ?_, ?_⟩ <;>
    simp [runSync, syncStep, syncInit, assocGet, assocSet, assocDelete, List.any_cons]

/-- C4 (amended): a cache entry written with expiry `E > 0` is served from the
cache (no fetch, state unchanged) for every read at time at or before `E`,
and the first read at a time strictly after `E` performs exactly one remote
refetch; an entry with expiry `0` is never considered expired and is served
from the cache at every time. -/
theorem getObjAsync_ttl (cfg : DbConfig) (http : String → Value) (c i : String)
    (ep : Option String) (s : DbState) (r : DbMemRecord)
    (h : assocGet s.memCache (toKey c i) = some r) :
    (r.expires = 0 → getObjAsync cfg http c (some i) ep s = ⟨r.obj, s, [], [], []⟩)
    ∧ (0 < r.expires → s.now ≤ r.expires →
        getObjAsync cfg http c (some i) ep s = ⟨r.obj, s, [], [], []⟩)
    ∧ (0 < r.expires → r.expires < s.now →
        (getObjAsync cfg http c (some i) ep s).fetched = [crudFetchPath cfg c i ep]) := by
  have hfl := findLocalRecordAsync_memHit s c i r h
  refine ⟨?_, ?_, ?_⟩
  · intro h0
    simp [getObjAsync, hfl, isExpired, h0]
  · intro h1 h2
    have hx : isExpired s.now r = false := by
      simp [isExpired, Nat.not_lt.mpr h2]
    simp [getObjAsync, hfl, hx]
  · intro h1 h2
    have hx : isExpired s.now r = true := by
      simp [isExpired, h1, h2]
    simp [getObjAsync, hfl, hx]

/-- The cache entry of the C4 boundary counterexample, expiring at time 5. -/
def rC4 : DbMemRecord :=
  {expires := 5, collection := "c", refCollection := none, objId := "1", obj := .vstr "x"}

/-- A state whose clock stands exactly at that expiry timestamp. -/
def sC4 : DbState :=
  {now := 5, memCache := [(toKey "c" "1", rC4)], loadedRefs := [],
   objs := [⟨5, "c", "", "1", .vstr "x"⟩]}

/-- C4 counterexample: at a read time exactly equal to the expiry timestamp
(`now = expires = 5`) the entry is still served from the cache with no remote
fetch, contradicting the claim that the first read at a time at or after `E`
performs a remote refetch. -/
theorem getObjAsync_ttl_counterexample :
    rC4.expires = 5 ∧ sC4.now = 5
    ∧ getObjAsync cfg0 (fun _ => Value.vnull) "c" (some "1") none sC4 =
        ⟨Value.vstr "x", sC4, [], [], []⟩ :=
  ⟨rfl, rfl, rfl⟩

/-- The cache entry of the C4 witness, expiring at time 10. -/
def rW4 : DbMemRecord :=
  {expires := 10, collection := "w4", refCollection := none, objId := "1", obj := .vstr "y"}

/-- A state whose clock stands before that expiry timestamp. -/
def sW4 : DbState :=
  {now := 3, memCache := [(toKey "w4" "1", rW4)], loadedRefs := [], objs := []}

/-- C4 witness: the amended TTL theorem applied at a concrete unexpired entry. -/
theorem getObjAsync_ttl_witness :
    getObjAsync cfg0 (fun _ => Value.vnull) "w4" (some "1") none sW4 =
      ⟨Value.vstr "y", sW4, [], [], []⟩ :=
  (getObjAsync_ttl cfg0 (fun _ => Value.vnull) "w4" "1" none sW4 rW4 rfl).2.1
    (by decide) (by decide)

/-- C5 (confirmed): for a configured relation `(A, B)` with the cascade flag,
every `reset`, `update`, `delete`, or `resetCollection` event on `B`
schedules exactly one full reset of `A` for the next tick (the dispatch
itself is pure, never running the reset inline), and the reset, when run,
removes every row tagged `collection = A` or `refCollection = A` from both
tiers and fires exactly one `resetCollection` event for `A`. -/
theorem cascade_resetCollection (cfg : DbConfig) (A B : String)
    (hrel : cfg.collectionRelations = [⟨A, B, true⟩])
    (t : ObjEventType)
    (ht : t = .reset ∨ t = .update ∨ t = .delete ∨ t = .resetCollection)
    (eid : String) (obj : Option Value) (incl : Bool) (s : DbState) :
    (callListeners cfg t B eid obj incl).2 = [A]
    ∧ (∀ p ∈ (removeAllRecordsAsync cfg A s).state.memCache,
        p.2.collection ≠ A ∧ p.2.refCollection ≠ some A)
    ∧ (∀ row ∈ (removeAllRecordsAsync cfg A s).state.objs,
        row.collection ≠ A ∧ row.refCollection ≠ A)
    ∧ (removeAllRecordsAsync cfg A s).events =
        [⟨.resetCollection, A, "(all)", none, false⟩] := by
  refine ⟨?_, ?_, ?_, rfl⟩
  · rcases ht with h | h | h | h <;> subst h <;> simp [callListeners, hrel]
  · intro p hp
    simp only [removeAllRecordsAsync, List.mem_filter] at hp
    have h2 := hp.2
    simp only [Bool.not_eq_true', Bool.or_eq_false_iff] at h2
    exact ⟨by simpa using h2.1, by simpa using h2.2⟩
  · intro row hrow
    simp only [removeAllRecordsAsync, List.mem_filter] at hrow
    have h2 := hrow.2
    simp only [Bool.not_eq_true', Bool.or_eq_false_iff] at h2
    exact ⟨by simpa using h2.1, by simpa using h2.2⟩

/-- The configuration of the C5 witness: relation `(A, B)` with the cascade
flag set. -/
def cfgC5 : DbConfig := {cfg0 with collectionRelations := [⟨"A", "B", true⟩]}

/-- A state holding one `A` row in memory and one row tagged
`refCollection = A` in the persistent tier. -/
def sC5 : DbState :=
  {now := 0,
   memCache := [(toKey "A" "1",
     {expires := 1, collection := "A", refCollection := none, objId := "1", obj := .vnull})],
   loadedRefs := [],
   objs := [⟨1, "X", "A", "2", .vnull⟩]}

/-- C5 witness: the cascade theorem applied at a concrete relation, event
kind, and populated state. -/
theorem cascade_resetCollection_witness :
    (callListeners cfgC5 .delete "B" "9" none false).2 = ["A"]
    ∧ (removeAllRecordsAsync cfgC5 "A" sC5).events =
        [⟨.resetCollection, "A", "(all)", none, false⟩] :=
  ⟨(cascade_resetCollection cfgC5 "A" "B" rfl .delete (Or.inr (Or.inr (Or.inl rfl)))
      "9" none false sC5).1,
   (cascade_resetCollection cfgC5 "A" "B" rfl .delete (Or.inr (Or.inr (Or.inl rfl)))
      "9" none false sC5).2.2.2⟩

/-- `applyRecord` writes the record into the memory cache under its key. -/
theorem applyRecord_memCache (s : DbState) (r : DbMemRecord) :
    (applyRecord s r).memCache = assocSet s.memCache (toKey r.collection r.objId) r := by
  simp only [applyRecord]
  split <;> rfl

/-- C6 (confirmed): writing an object with `setAsync` and immediately reading
it back with `getObjAsync` under its primary key (same clock, no intervening
mutation) returns the object itself from the cache, with no remote fetch, no
event, and no state change. -/
theorem setAsync_getObjAsync_roundTrip (cfg : DbConfig) (http : String → Value)
    (c : String) (o : Value) (s : DbState) (ho : o.truthy = true) :
    getObjAsync cfg http c (some (getPrimaryKey cfg c o)) none (setAsync cfg c o s).state =
      ⟨o, (setAsync cfg c o s).state, [], [], []⟩ := by
  set rec0 : DbMemRecord :=
    {expires := getExpires cfg s.now, collection := c, refCollection := none,
     objId := getPrimaryKey cfg c o, obj := o} with hrec0
  have hrec : (setAsync cfg c o s).state = applyRecord s rec0 := by
    simp [setAsync, setRecordsAsync, ho, hrec0]
  have hmem : assocGet (setAsync cfg c o s).state.memCache
      (toKey c (getPrimaryKey cfg c o)) = some rec0 := by
    rw [hrec, applyRecord_memCache]
    exact assocGet_assocSet_self _ _ _
  have hnow : (setAsync cfg c o s).state.now = s.now := by
    rw [hrec, applyRecord_now]
  have h1 : ¬ (getExpires cfg s.now < s.now) := by
    unfold getExpires
    omega
  have hexp : isExpired s.now rec0 = false := by
    simp [isExpired, hrec0, h1]
  have hhit := findLocalRecordAsync_memHit (setAsync cfg c o s).state c
    (getPrimaryKey cfg c o) _ hmem
  simp [getObjAsync, hhit, hnow, hexp, hrec0]

/-- C6 witness: the round-trip theorem applied at a concrete object. -/
theorem setAsync_getObjAsync_roundTrip_witness :
    getObjAsync cfg0 (fun _ => Value.vnull) "w6"
        (some (getPrimaryKey cfg0 "w6" (Value.vobj [("Id", Value.vstr "3")]))) none
        (setAsync cfg0 "w6" (Value.vobj [("Id", Value.vstr "3")]) ⟨7, [], [], []⟩).state =
      ⟨Value.vobj [("Id", Value.vstr "3")],
       (setAsync cfg0 "w6" (Value.vobj [("Id", Value.vstr "3")]) ⟨7, [], [], []⟩).state,
       [], [], []⟩ :=
  setAsync_getObjAsync_roundTrip cfg0 (fun _ => Value.vnull) "w6"
    (Value.vobj [("Id", Value.vstr "3")]) ⟨7, [], [], []⟩ rfl

/-- C7 (amended): `updateInPlaceAsync` applies the transform only to a
cached, unexpired object (otherwise null is returned and nothing changes);
when the transform returns null the cache entry is left unchanged and null is
returned; when it returns a value identical to its input the contract error
is raised; otherwise the result is written as the cache entry under the
primary key computed from the new value, preserving the entry's expiry and
`refCollection` tag, and exactly one `update` event is fired for it. -/
theorem updateInPlace_behavior (cfg : DbConfig) (c i : String)
    (u : Value → String → Option String → Option Value) (s : DbState) :
    ((findLocalRecordAsync s c (some i)).1 = none →
      updateInPlaceAsync cfg c (some i) u s =
        ⟨.ok none, (findLocalRecordAsync s c (some i)).2, [], [], []⟩)
    ∧ (∀ cached, (findLocalRecordAsync s c (some i)).1 = some cached →
        isExpired s.now cached = true →
        updateInPlaceAsync cfg c (some i) u s =
          ⟨.ok none, (findLocalRecordAsync s c (some i)).2, [], [], []⟩)
    ∧ (∀ cached, (findLocalRecordAsync s c (some i)).1 = some cached →
        isExpired s.now cached = false → u cached.obj c (some i) = none →
        updateInPlaceAsync cfg c (some i) u s =
          ⟨.ok none, (findLocalRecordAsync s c (some i)).2, [], [], []⟩)
    ∧ (∀ cached v, (findLocalRecordAsync s c (some i)).1 = some cached →
        isExpired s.now cached = false → u cached.obj c (some i) = some v →
        valueEq v cached.obj = true →
        updateInPlaceAsync cfg c (some i) u s =
          ⟨.error .updateInPlaceSameRef, (findLocalRecordAsync s c (some i)).2, [], [], []⟩)
    ∧ (∀ cached v, (findLocalRecordAsync s c (some i)).1 = some cached →
        isExpired s.now cached = false → u cached.obj c (some i) = some v →
        valueEq v cached.obj = false →
        (updateInPlaceAsync cfg c (some i) u s).result = .ok (some v)
        ∧ assocGet (updateInPlaceAsync cfg c (some i) u s).state.memCache
            (toKey c (getPrimaryKey cfg c v)) =
          some ⟨cached.expires, c, cached.refCollection, getPrimaryKey cfg c v, v⟩
        ∧ (updateInPlaceAsync cfg c (some i) u s).events =
          [⟨.update, c, getPrimaryKey cfg c v, some v, false⟩]) := by
  have hn := findLocalRecordAsync_now s c (some i)
  refine ⟨?_, ?_, ?_, ?_, ?_⟩
  · intro hfl
    simp [updateInPlaceAsync, hfl]
  · intro cached hfl hexp
    simp [updateInPlaceAsync, hfl, hn, hexp]
  · intro cached hfl hexp hu
    simp [updateInPlaceAsync, hfl, hn, hexp, hu]
  · intro cached v hfl hexp hu hv
    simp [updateInPlaceAsync, hfl, hn, hexp, hu, hv]
  · intro cached v hfl hexp hu hv
    refine ⟨?_, ?_, ?_⟩
    · simp [updateInPlaceAsync, hfl, hn, hexp, hu, hv]
    · simp [updateInPlaceAsync, hfl, hn, hexp, hu, hv, setRecordsAsync]
      rw [applyRecord_memCache]
      exact assocGet_assocSet_self _ _ _
    · simp [updateInPlaceAsync, hfl, hn, hexp, hu, hv, setRecordsAsync, callListeners]

/-- The cached object of the C7 counterexample. -/
def vOldC7 : Value := .vobj [("Id", .vstr "1")]

/-- A state holding that object cached and unexpired in the memory tier. -/
def sC7 : DbState :=
  {now := 0, memCache := [(toKey "c7" "1", ⟨100, "c7", none, "1", vOldC7⟩)],
   loadedRefs := [], objs := []}

/-- C7 counterexample: the object is cached and unexpired, the transform
returns null (a value distinct from its input), yet no replacement happens
and no `update` event fires; the code returns null leaving the state
untouched, contradicting the claim that any non-identical transform result
replaces the cache entry and fires `update`. -/
theorem updateInPlace_null_counterexample :
    assocGet sC7.memCache (toKey "c7" "1") = some ⟨100, "c7", none, "1", vOldC7⟩
    ∧ isExpired sC7.now ⟨100, "c7", none, "1", vOldC7⟩ = false
    ∧ updateInPlaceAsync cfg0 "c7" (some "1") (fun _ _ _ => none) sC7 =
        ⟨.ok none, sC7, [], [], []⟩ :=
  ⟨rfl, rfl, rfl⟩

/-- The transform result of the C7 witness. -/
def vNewC7 : Value := .vobj [("Id", .vstr "1"), ("n", .vnum 2)]

/-- A state for the C7 witness with a cached, unexpired object. -/
def sW7 : DbState :=
  {now := 0, memCache := [(toKey "c7w" "1", ⟨50, "c7w", none, "1", vOldC7⟩)],
   loadedRefs := [], objs := []}

/-- C7 witness: the amended theorem applied at a concrete cached object and a
transform returning a genuinely new value. -/
theorem updateInPlace_behavior_witness :
    (updateInPlaceAsync cfg0 "c7w" (some "1") (fun _ _ _ => some vNewC7) sW7).result =
      .ok (some vNewC7)
    ∧ (updateInPlaceAsync cfg0 "c7w" (some "1") (fun _ _ _ => some vNewC7) sW7).events =
      [⟨.update, "c7w", "1", some vNewC7, false⟩] := by
  have h := (updateInPlace_behavior cfg0 "c7w" "1" (fun _ _ _ => some vNewC7) sW7).2.2.2.2
    ⟨50, "c7w", none, "1", vOldC7⟩ vNewC7 rfl rfl rfl rfl
  exact ⟨h.1, h.2.2⟩

/-- Serving a cached unexpired entry: `getObjAsync` returns it with no fetch,
no event, and no state change. -/
theorem getObjAsync_cacheHit (cfg : DbConfig) (http : String → Value) (c i : String)
    (ep : Option String) (s : DbState) (r : DbMemRecord)
    (h : assocGet s.memCache (toKey c i) = some r)
    (hexp : isExpired s.now r = false) :
    getObjAsync cfg http c (some i) ep s = ⟨r.obj, s, [], [], []⟩ := by
  have hhit := findLocalRecordAsync_memHit s c i r h
  simp [getObjAsync, hhit, hexp]

/-- C9 (confirmed): when a fetch finds no object, a present null entry is
written under that key with the default TTL — distinguishable from the
prior absence of any entry — and every later read before expiry returns null
from the cache with no remote call, no event, and no state change. -/
theorem getObjAsync_negative_caching (cfg : DbConfig) (http : String → Value)
    (c i : String) (s : DbState)
    (hmem : assocGet s.memCache (toKey c i) = none)
    (hsql : s.objs.find? (fun row => row.objId == i && row.collection == c) = none)
    (hhttp : http (crudFetchPath cfg c i none) = .vnull) :
    (getObjAsync cfg http c (some i) none s).result = .vnull
    ∧ (getObjAsync cfg http c (some i) none s).fetched = [crudFetchPath cfg c i none]
    ∧ assocGet (getObjAsync cfg http c (some i) none s).state.memCache (toKey c i) =
        some ⟨getExpires cfg s.now, c, none, i, .vnull⟩
    ∧ (∀ now2, now2 < getExpires cfg s.now →
        getObjAsync cfg http c (some i) none
            {(getObjAsync cfg http c (some i) none s).state with now := now2} =
          ⟨.vnull, {(getObjAsync cfg http c (some i) none s).state with now := now2},
           [], [], []⟩) := by
  have hfl : findLocalRecordAsync s c (some i) = (none, s) := by
    simp [findLocalRecordAsync, hmem, hsql]
  have hres : (getObjAsync cfg http c (some i) none s).result = .vnull := by
    simp [getObjAsync, hfl, hhttp, Value.truthy]
  have hfetch : (getObjAsync cfg http c (some i) none s).fetched =
      [crudFetchPath cfg c i none] := by
    simp [getObjAsync, hfl, hhttp, setRecordsAsync, Value.truthy]
  have hmem2 : assocGet (getObjAsync cfg http c (some i) none s).state.memCache
      (toKey c i) = some ⟨getExpires cfg s.now, c, none, i, .vnull⟩ := by
    simp [getObjAsync, hfl, hhttp, setRecordsAsync, Value.truthy]
    rw [applyRecord_memCache]
    exact assocGet_assocSet_self _ _ _
  refine ⟨hres, hfetch, hmem2, ?_⟩
  intro now2 hlt
  have hmem3 : assocGet
      ({(getObjAsync cfg http c (some i) none s).state with now := now2}).memCache
      (toKey c i) = some ⟨getExpires cfg s.now, c, none, i, .vnull⟩ := hmem2
  have hnl : ¬ (getExpires cfg s.now < now2) := by omega
  have hexp : isExpired now2 (⟨getExpires cfg s.now, c, none, i, .vnull⟩ : DbMemRecord) =
      false := by
    simp [isExpired, hnl]
  exact getObjAsync_cacheHit cfg http c i none _ _ hmem3 hexp

/-- C9 witness: the negative-caching theorem applied at a concrete empty
state with a remote source answering null. -/
theorem getObjAsync_negative_caching_witness :
    (getObjAsync cfg0 (fun _ => Value.vnull) "n9" (some "1") none ⟨2, [], [], []⟩).result =
      .vnull
    ∧ assocGet (getObjAsync cfg0 (fun _ => Value.vnull) "n9" (some "1") none
        ⟨2, [], [], []⟩).state.memCache (toKey "n9" "1") =
      some ⟨getExpires cfg0 2, "n9", none, "1", .vnull⟩ := by
  have h := getObjAsync_negative_caching cfg0 (fun _ => Value.vnull) "n9" "1"
    ⟨2, [], [], []⟩ rfl rfl rfl
  exact ⟨h.1, h.2.2.1⟩

/-- An array value is truthy. -/
theorem Value.truthy_of_isArray (v : Value) (h : v.isArray = true) : v.truthy = true := by
  cases v <;> simp_all [Value.isArray, Value.truthy]

/-- C2 (amended): of the two arity mismatches, only the array-payload for a
single-shaped relation is raised as a configuration error; a non-array
payload for a collection-shaped relation is accepted without error, stored
as a single record with a single-id snapshot, and returned as-is. -/
theorem getObjRef_arity (cfg : DbConfig) (http : String → Value) (c i rc prop fk : String)
    (ep : Option String) (s : DbState)
    (hmiss : (findLocalRecordAsync s (c ++ ":REF:" ++ prop) (some i)).1 = none) :
    ((http (refFetchPath cfg c i prop ep)).isArray = true →
      (getObjRef cfg http c (some i) rc prop fk false false ep s).result =
        .error .mismatchIsCollection)
    ∧ ((http (refFetchPath cfg c i prop ep)).truthy = true →
       (http (refFetchPath cfg c i prop ep)).isArray = false →
       (getObjRef cfg http c (some i) rc prop fk true false ep s).result =
         .ok (http (refFetchPath cfg c i prop ep))) := by
  refine ⟨?_, ?_⟩
  · intro ha
    have ht := Value.truthy_of_isArray _ ha
    simp [getObjRef, hmiss, getObjRefFetch, ha, ht]
  · intro ht ha
    simp [getObjRef, hmiss, getObjRefFetch, ha, ht]

/-- C2 counterexample: a collection-shaped request whose fetched payload is a
plain object (not an array) raises no error — the call succeeds and returns
the object — contradicting the claim that both arity-mismatch directions are
raised as configuration errors. -/
theorem getObjRef_arity_counterexample :
    (getObjRefCollection cfg0 (fun _ => Value.vobj [("Id", Value.vstr "7")]) "a" (some "1")
        "b" "p" "fk" false none ⟨0, [], [], []⟩).result =
      .ok (Value.vobj [("Id", Value.vstr "7")]) := rfl

/-- C2 witness: the amended theorem applied to an array payload answered to a
single-shaped relation request, which does raise the configuration error. -/
theorem getObjRef_arity_witness :
    (getObjRef cfg0 (fun _ => Value.varr [Value.vobj [("Id", Value.vstr "7")]]) "a"
        (some "1") "b" "p" "fk" false false none ⟨0, [], [], []⟩).result =
      .error .mismatchIsCollection := by
  have h := getObjRef_arity cfg0 (fun _ => Value.varr [Value.vobj [("Id", Value.vstr "7")]])
    "a" "1" "b" "p" "fk" none ⟨0, [], [], []⟩ rfl
  exact h.1 rfl

/-- C8 (confirmed): initialization run with the persisted commit flag not at
the string 1 redoes the migration: it terminates with the commit flag at 1,
both version settings at the current constants, and the `objs` table and its
unique index in place; the write trace shows the flag set to 0 before the
two version constants and to 1 only after both. -/
theorem initAsync_recovery (s : MigState) (h : persistedCommitFlag s ≠ some "1") :
    getSetting (initAsync s).1 "settingsCommitted" = some "1"
    ∧ getSetting (initAsync s).1 "dbSchemaVersion" = some dbSchemaVersion
    ∧ getSetting (initAsync s).1 "dbDataStructure" = some dbDataStructure
    ∧ (initAsync s).1.objsTableExists = true
    ∧ (initAsync s).1.objsIndexExists = true
    ∧ (initAsync s).2 = [("settingsCommitted", "0"), ("dbSchemaVersion", "3"),
        ("dbDataStructure", "3"), ("settingsCommitted", "1")] := by
  cases hb : s.settingsTableExists
  · simp [initAsync, hb, getSetting, setSettingT, assocGet, dbSchemaVersion, dbDataStructure]
  · have hc : getSetting s "settingsCommitted" ≠ some "1" := by
      simpa [persistedCommitFlag, hb] using h
    have hcond : (getSetting s "settingsCommitted" == some "1") = false := by
      rw [beq_eq_false_iff_ne]
      exact hc
    simp only [initAsync, hb, hcond, Bool.false_eq_true, if_false, if_true]
    simp [getSetting, setSettingT, assocGet, dbSchemaVersion, dbDataStructure]

/-- The interrupted-upgrade state of the C8 witness: commit flag left at 0. -/
def sW8 : MigState :=
  {settingsTableExists := true, settings := [("settingsCommitted", "0")],
   objsTableExists := false, objsIndexExists := false, objRows := []}

/-- C8 witness: the recovery theorem applied at a concrete crashed state. -/
theorem initAsync_recovery_witness :
    getSetting (initAsync sW8).1 "settingsCommitted" = some "1"
    ∧ (initAsync sW8).2 = [("settingsCommitted", "0"), ("dbSchemaVersion", "3"),
        ("dbDataStructure", "3"), ("settingsCommitted", "1")] := by
  have h := initAsync_recovery sW8 (by decide)
  exact ⟨h.1, h.2.2.2.2.2⟩

end ClientDb
